import Mathlib

/-!
Verification development for the toginnsikt collection-and-classification
engine: the departure classifier, the retry/expiry collection state machine,
the adaptive polling scheduler, the destination matcher, the persistence
invariants of the `actual_departures` table, and the dashboard API queries
in `src/app/api/departures/route.ts`.

The collector module (`enhanced_commute_collector_cloud.py`,
`collection_scheduler.py`) is referenced by the repository's Dockerfile but
its source is not part of this tree; those components are modelled from the
specification (each such definition carries a doc comment starting
`Modelled from the spec:`). The dashboard route handler and the SQL
migrations are present in the tree and are embedded from their source.
-/

namespace Toginnsikt

/-- Business classification of a departure outcome, the
`departure_status` column added by migration 003
(on_time, delayed, cancelled, severely_delayed, unknown). -/
inductive DepartureStatus where
  | on_time
  | delayed
  | severely_delayed
  | cancelled
  | unknown
deriving DecidableEq, Repr

/-- Output of the classifier: status, optional whole-minute delay and a
free-form audit reason (`classification_reason` column). -/
structure Classification where
  status : DepartureStatus
  delayMinutes : Option Nat
  reason : String
deriving DecidableEq, Repr

/-- Modelled from the spec: collection is attempted starting
`planned_time + 5 minutes` (missing collector source). Value in seconds. -/
def POLL_OFFSET_SECONDS : Int := 300

/-- Modelled from the spec: fixed retention cutoff of 2 hours after the
planned time, past which upstream real-time data is unavailable
(missing collector source). Value in seconds. -/
def RETENTION_CUTOFF_SECONDS : Int := 7200

/-- Modelled from the spec: delay in whole minutes between a planned and an
actual timestamp (seconds since epoch), seconds discarded, clamped below
at zero (missing collector source). -/
def delayMinutesOf (planned actual : Int) : Nat :=
  (actual - planned).toNat / 60

/-- Modelled from the spec: the 3-tier delay thresholds — on_time for a
delay of at most 2 minutes, delayed for 3 to 15 minutes,
severely_delayed above 15 (missing collector source). -/
def statusOfDelay (d : Nat) : DepartureStatus :=
  if d ≤ 2 then DepartureStatus.on_time
  else if d ≤ 15 then DepartureStatus.delayed
  else DepartureStatus.severely_delayed

/-- Modelled from the spec: the pure departure classifier
`classify(planned_time, actual_time?, expected_time?, is_realtime, now)`
(missing collector source). Times are seconds since epoch. `tol` is the
tunable tolerance deciding that an expected time is "small/negative/
near-zero" relative to the planned time. Returns `none` when the
departure is still within the polling window and must not be classified. -/
def classify (tol planned : Int) (actual expected : Option Int)
    (rt : Bool) (now : Int) : Option Classification :=
  match actual with
  | some a =>
      let d := delayMinutesOf planned a
      some { status := statusOfDelay d, delayMinutes := some d,
             reason := "actual departure confirmed, delay " ++ toString d }
  | none =>
      match expected with
      | some e =>
          if e - planned ≤ tol ∧ RETENTION_CUTOFF_SECONDS ≤ now - planned then
            some { status := DepartureStatus.cancelled, delayMinutes := none,
                   reason := "expected time reasonable, no confirmation" }
          else if RETENTION_CUTOFF_SECONDS ≤ now - planned then
            some { status := DepartureStatus.unknown, delayMinutes := none,
                   reason := "no data within retention window" }
          else none
      | none =>
          if RETENTION_CUTOFF_SECONDS ≤ now - planned then
            some { status := DepartureStatus.unknown, delayMinutes := none,
                   reason := "no data within retention window" }
          else none

theorem delay_formula_eq (d : Int) : (max 0 (d.tdiv 60)).toNat = d.toNat / 60 := by
  cases d with
  | ofNat n =>
      simp [Int.tdiv]
      omega
  | negSucc n =>
      simp [Int.tdiv]
      omega

/-- Claim C1: when `actual_time` is present, `classify` returns
`delay = max(0, minutes(actual − planned))` computed in whole minutes with
seconds discarded (truncation toward zero), and the status is `on_time`
for delay ≤ 2, `delayed` for 3 ≤ delay ≤ 15 and `severely_delayed` for
delay > 15; at the boundaries, delay 2 is on_time, 3 and 15 are delayed
and 16 is severely_delayed. -/
theorem classify_actual_present_spec :
    (∀ (tol planned a : Int) (expected : Option Int) (rt : Bool) (now : Int),
      ∃ r : String,
        classify tol planned (some a) expected rt now =
          some { status := statusOfDelay (max 0 ((a - planned).tdiv 60)).toNat,
                 delayMinutes := some (max 0 ((a - planned).tdiv 60)).toNat,
                 reason := r })
  ∧ (∀ d : Nat, statusOfDelay d =
        (if d ≤ 2 then DepartureStatus.on_time
         else if d ≤ 15 then DepartureStatus.delayed
         else DepartureStatus.severely_delayed))
  ∧ statusOfDelay 2 = DepartureStatus.on_time
  ∧ statusOfDelay 3 = DepartureStatus.delayed
  ∧ statusOfDelay 15 = DepartureStatus.delayed
  ∧ statusOfDelay 16 = DepartureStatus.severely_delayed := by
  refine ⟨?_, fun d => rfl, rfl, rfl, rfl, rfl⟩
  intro tol planned a expected rt now
  refine ⟨"actual departure confirmed, delay " ++
      toString (delayMinutesOf planned a), ?_⟩
  simp only [classify, delay_formula_eq, delayMinutesOf]

/-- An expected time is usable for the silent-cancellation heuristic when it
is present and at most `tol` beyond the planned time (small, negative or
near-zero difference). -/
def usableExpected (tol planned : Int) (expected : Option Int) : Prop :=
  ∃ e, expected = some e ∧ e - planned ≤ tol

instance (tol planned : Int) (expected : Option Int) :
    Decidable (usableExpected tol planned expected) := by
  unfold usableExpected
  cases expected with
  | none => exact isFalse (by simp)
  | some e => exact decidable_of_iff (e - planned ≤ tol) (by simp)

/-- Claim C2: with no `actual_time`, `classify` returns `cancelled` exactly
when a usable (near-zero difference) `expected_time` is present and the
retention cutoff has elapsed since the planned time; it returns `unknown`
exactly when no usable expected time exists and the cutoff has elapsed; and
otherwise — still within the polling window — it classifies nothing, so no
ActualDeparture is written. -/
theorem classify_no_actual_spec (tol planned : Int) (expected : Option Int)
    (rt : Bool) (now : Int) :
    ((∃ c, classify tol planned none expected rt now = some c ∧
        c.status = DepartureStatus.cancelled) ↔
      usableExpected tol planned expected ∧
        RETENTION_CUTOFF_SECONDS ≤ now - planned)
  ∧ ((∃ c, classify tol planned none expected rt now = some c ∧
        c.status = DepartureStatus.unknown) ↔
      ¬ usableExpected tol planned expected ∧
        RETENTION_CUTOFF_SECONDS ≤ now - planned)
  ∧ (classify tol planned none expected rt now = none ↔
      now - planned < RETENTION_CUTOFF_SECONDS) := by
  cases expected with
  | none =>
      by_cases h : RETENTION_CUTOFF_SECONDS ≤ now - planned <;>
        simp [classify, usableExpected, h] <;> omega
  | some e =>
      by_cases h : RETENTION_CUTOFF_SECONDS ≤ now - planned <;>
        by_cases he : e - planned ≤ tol <;>
          simp [classify, usableExpected, h, he] <;> omega

theorem classify_no_actual_spec_witness :
    (∃ c, classify 120 0 none (some 0) true 7200 = some c ∧
        c.status = DepartureStatus.cancelled) ∧
    classify 120 0 none none true 3600 = none := by
  constructor
  · exact (classify_no_actual_spec 120 0 (some 0) true 7200).1.mpr
      ⟨⟨0, rfl, by norm_num⟩, by norm_num [RETENTION_CUTOFF_SECONDS]⟩
  · exact (classify_no_actual_spec 120 0 none true 3600).2.2.mpr
      (by norm_num [RETENTION_CUTOFF_SECONDS])

/-- Claim C8: `classify` is pure and deterministic — two calls on
componentwise-identical inputs return identical results. -/
theorem classify_deterministic (tol₁ tol₂ p₁ p₂ : Int)
    (a₁ a₂ e₁ e₂ : Option Int) (rt₁ rt₂ : Bool) (n₁ n₂ : Int)
    (htol : tol₁ = tol₂) (hp : p₁ = p₂) (ha : a₁ = a₂) (he : e₁ = e₂)
    (hrt : rt₁ = rt₂) (hn : n₁ = n₂) :
    classify tol₁ p₁ a₁ e₁ rt₁ n₁ = classify tol₂ p₂ a₂ e₂ rt₂ n₂ := by
  subst htol hp ha he hrt hn
  rfl

theorem classify_deterministic_witness :
    classify 120 0 (some 60) none true 600 =
      classify 120 0 (some 60) none true 600 :=
  classify_deterministic 120 120 0 0 (some 60) (some 60) none none
    true true 600 600 rfl rfl rfl rfl rfl rfl

/-- Modelled from the spec: helper of the destination matcher — does the
candidate character list start with the needle (missing collector source)? -/
def startsWithChars : List Char → List Char → Bool
  | [], _ => true
  | _ :: _, [] => false
  | a :: as, b :: bs => a = b && startsWithChars as bs

/-- Modelled from the spec: substring containment of a needle inside a
haystack, both as character lists (missing collector source). -/
def hasSubChars (needle : List Char) : List Char → Bool
  | [] => startsWithChars needle []
  | b :: bs => startsWithChars needle (b :: bs) || hasSubChars needle bs

/-- Modelled from the spec: split a character list on the pipe delimiter,
Python `str.split` style — the empty list yields one empty alternative
(missing collector source). -/
def splitOnPipe : List Char → List (List Char)
  | [] => [[]]
  | c :: cs =>
      match splitOnPipe cs with
      | [] => [[]]
      | r :: rs => if c = '|' then [] :: r :: rs else (c :: r) :: rs

/-- Modelled from the spec: the route/destination matcher
`matches_final_destination(candidate, pattern)` — an empty pattern matches
everything; a non-empty pattern is a pipe-delimited disjunction of
alternatives, matched by case-insensitive substring containment in the
candidate (missing collector source). -/
def matches_final_destination (candidate pattern : String) : Bool :=
  if pattern.data.isEmpty then true
  else
    (splitOnPipe pattern.data).any fun alt =>
      hasSubChars (alt.map Char.toLower) (candidate.data.map Char.toLower)

theorem startsWithChars_iff (n h : List Char) :
    startsWithChars n h = true ↔ ∃ t, h = n ++ t := by
  induction n generalizing h with
  | nil => simp [startsWithChars]
  | cons a as ih =>
      cases h with
      | nil => simp [startsWithChars]
      | cons b bs =>
          simp only [startsWithChars, Bool.and_eq_true, decide_eq_true_eq, ih,
            List.cons_append, List.cons.injEq]
          constructor
          · rintro ⟨rfl, t, rfl⟩
            exact ⟨t, rfl, rfl⟩
          · rintro ⟨t, rfl, rfl⟩
            exact ⟨rfl, t, rfl⟩

theorem hasSubChars_iff (n h : List Char) :
    hasSubChars n h = true ↔ ∃ l r, h = l ++ n ++ r := by
  induction h with
  | nil =>
      simp only [hasSubChars, startsWithChars_iff]
      constructor
      · rintro ⟨t, ht⟩
        exact ⟨[], t, ht⟩
      · rintro ⟨l, r, hlr⟩
        have hl : l = [] := by
          cases l with
          | nil => rfl
          | cons x xs => simp at hlr
        subst hl
        exact ⟨r, by simpa using hlr⟩
  | cons b bs ih =>
      simp only [hasSubChars, Bool.or_eq_true, startsWithChars_iff, ih]
      constructor
      · rintro (⟨t, ht⟩ | ⟨l, r, hlr⟩)
        · exact ⟨[], t, by simpa using ht⟩
        · exact ⟨b :: l, r, by simp [hlr]⟩
      · rintro ⟨l, r, hlr⟩
        cases l with
        | nil =>
            exact Or.inl ⟨r, by simpa using hlr⟩
        | cons x xs =>
            simp only [List.cons_append, List.cons.injEq] at hlr
            exact Or.inr ⟨xs, r, hlr.2⟩

/-- Claim C6: `matches_final_destination` accepts every candidate when the
pattern is empty; for a non-empty pattern it accepts exactly when some
pipe-delimited alternative occurs, case-insensitively, as a substring of
the candidate; and on the documented instances:
Lysaker vs Lysaker|Stabekk matches, Ski vs Lysaker|Stabekk does not, and
anything vs the empty pattern matches. -/
theorem matcher_spec :
    (∀ c : String, matches_final_destination c "" = true)
  ∧ (∀ c p : String, p ≠ "" →
      (matches_final_destination c p = true ↔
        ∃ alt ∈ splitOnPipe p.data, ∃ l r : List Char,
          c.data.map Char.toLower = l ++ alt.map Char.toLower ++ r))
  ∧ matches_final_destination "Lysaker" "Lysaker|Stabekk" = true
  ∧ matches_final_destination "Ski" "Lysaker|Stabekk" = false
  ∧ matches_final_destination "anything" "" = true := by
  refine ⟨fun c => rfl, ?_, by decide, by decide, rfl⟩
  intro c p hp
  have hne : p.data.isEmpty = false := by
    cases hd : p.data with
    | nil => exact absurd (String.ext (by rw [hd])) hp
    | cons x xs => simp [hd]
  simp only [matches_final_destination, hne, Bool.false_eq_true, if_false,
    List.any_eq_true, hasSubChars_iff]

theorem matcher_spec_witness :
    ∃ alt ∈ splitOnPipe ("Lysaker|Stabekk" : String).data,
      ∃ l r : List Char,
        ("Lysaker" : String).data.map Char.toLower =
          l ++ alt.map Char.toLower ++ r :=
  (matcher_spec.2.1 "Lysaker" "Lysaker|Stabekk" (by decide)).mp (by decide)

/-- Modelled from the spec: the pure adaptive scheduling function
`intervalFor(localTime) -> Duration` (missing collector source). The local
time of day is given in minutes since midnight (0 ≤ m < 1440); the result
is the polling interval in minutes — 15 during rush windows 06:00–09:00
and 15:00–18:00, 30 during 09:00–15:00 and 18:00–24:00, 60 during
00:00–06:00. -/
def intervalFor (m : Nat) : Nat :=
  if 6 * 60 ≤ m ∧ m < 9 * 60 then 15
  else if 15 * 60 ≤ m ∧ m < 18 * 60 then 15
  else if 9 * 60 ≤ m ∧ m < 15 * 60 then 30
  else if 18 * 60 ≤ m ∧ m < 24 * 60 then 30
  else 60

/-- Collection state of a PlannedDeparture, the `collection_status` column
added by migration 003 (pending, collected, failed, expired). -/
inductive CollectionState where
  | pending
  | collected
  | failed
  | expired
deriving DecidableEq, Repr

/-- Modelled from the spec: at each tick the poller selects the
PlannedDepartures in state pending or failed whose planned time is at
least 5 minutes in the past (missing collector source). -/
def selectedForPoll (st : CollectionState) (planned now : Int) : Bool :=
  (st == CollectionState.pending || st == CollectionState.failed) &&
    decide (planned + POLL_OFFSET_SECONDS ≤ now)

/-- Claim C7: the polling interval is a pure total function of local time
of day with the documented three tiers, and poll selection picks exactly
the pending/failed departures planned at least 5 minutes ago. -/
theorem scheduler_spec :
    (∀ m : Nat, 360 ≤ m → m < 540 → intervalFor m = 15)
  ∧ (∀ m : Nat, 900 ≤ m → m < 1080 → intervalFor m = 15)
  ∧ (∀ m : Nat, 540 ≤ m → m < 900 → intervalFor m = 30)
  ∧ (∀ m : Nat, 1080 ≤ m → m < 1440 → intervalFor m = 30)
  ∧ (∀ m : Nat, m < 360 → intervalFor m = 60)
  ∧ (∀ (st : CollectionState) (planned now : Int),
      selectedForPoll st planned now = true ↔
        (st = CollectionState.pending ∨ st = CollectionState.failed) ∧
          planned + 300 ≤ now) := by
  refine ⟨?_, ?_, ?_, ?_, ?_, ?_⟩
  · intro m h1 h2
    simp only [intervalFor]
    rw [if_pos (by omega)]
  · intro m h1 h2
    simp only [intervalFor]
    rw [if_neg (by omega), if_pos (by omega)]
  · intro m h1 h2
    simp only [intervalFor]
    rw [if_neg (by omega), if_neg (by omega), if_pos (by omega)]
  · intro m h1 h2
    simp only [intervalFor]
    rw [if_neg (by omega), if_neg (by omega), if_neg (by omega),
      if_pos (by omega)]
  · intro m h1
    simp only [intervalFor]
    rw [if_neg (by omega), if_neg (by omega), if_neg (by omega),
      if_neg (by omega)]
  · intro st planned now
    cases st <;>
      simp [selectedForPoll, POLL_OFFSET_SECONDS]

theorem scheduler_spec_witness :
    intervalFor 450 = 15 ∧ intervalFor 1000 = 15 ∧ intervalFor 700 = 30 ∧
    intervalFor 1200 = 30 ∧ intervalFor 100 = 60 ∧
    selectedForPoll CollectionState.pending 0 300 = true :=
  ⟨scheduler_spec.1 450 (by norm_num) (by norm_num),
   scheduler_spec.2.1 1000 (by norm_num) (by norm_num),
   scheduler_spec.2.2.1 700 (by norm_num) (by norm_num),
   scheduler_spec.2.2.2.1 1200 (by norm_num) (by norm_num),
   scheduler_spec.2.2.2.2.1 100 (by norm_num),
   (scheduler_spec.2.2.2.2.2 CollectionState.pending 0 300).mpr
     ⟨Or.inl rfl, by norm_num⟩⟩

/-- Outcome of one upstream query for a departure: either the real-world
departure was resolved, or no actionable data came back. -/
inductive PollResult where
  | resolved
  | noData
deriving DecidableEq, Repr

/-- Modelled from the spec: the retry/expiry state machine step applied to
one PlannedDeparture at one poller tick at time `now` (missing collector
source). Terminal states are untouched; a failed departure expires once
the 2-hour retention cutoff since its planned time is reached, and is
otherwise retried; a selected pending or failed departure moves to
collected on resolution and to failed on no data. -/
def tick (st : CollectionState) (planned now : Int) (r : PollResult) :
    CollectionState :=
  match st with
  | CollectionState.collected => CollectionState.collected
  | CollectionState.expired => CollectionState.expired
  | CollectionState.pending =>
      if selectedForPoll CollectionState.pending planned now then
        match r with
        | PollResult.resolved => CollectionState.collected
        | PollResult.noData => CollectionState.failed
      else CollectionState.pending
  | CollectionState.failed =>
      if RETENTION_CUTOFF_SECONDS ≤ now - planned then CollectionState.expired
      else if selectedForPoll CollectionState.failed planned now then
        match r with
        | PollResult.resolved => CollectionState.collected
        | PollResult.noData => CollectionState.failed
      else CollectionState.failed

/-- The transition pairs the specification admits: pending → collected,
pending → failed, failed → collected, failed → failed, failed → expired. -/
def allowedTransition : CollectionState → CollectionState → Bool
  | CollectionState.pending, CollectionState.collected => true
  | CollectionState.pending, CollectionState.failed => true
  | CollectionState.failed, CollectionState.collected => true
  | CollectionState.failed, CollectionState.failed => true
  | CollectionState.failed, CollectionState.expired => true
  | _, _ => false

/-- Run a sequence of poller ticks, each given as a time and poll result. -/
def runTicks (st : CollectionState) (planned : Int) :
    List (Int × PollResult) → CollectionState
  | [] => st
  | (now, r) :: rest => runTicks (tick st planned now r) planned rest

theorem runTicks_expired (planned : Int) (l : List (Int × PollResult)) :
    runTicks CollectionState.expired planned l = CollectionState.expired := by
  induction l with
  | nil => rfl
  | cons p rest ih => simpa [runTicks, tick] using ih

/-- Claim C5: every state change of the collection state machine is one of
pending → collected, pending → failed, failed → collected,
failed → failed, failed → expired; collected and expired are terminal;
a failed departure with no resolution becomes expired exactly when two
hours have elapsed since its planned time; and an expired departure is
never selected by any subsequent poller tick. -/
theorem state_machine_spec :
    (∀ (st : CollectionState) (planned now : Int) (r : PollResult),
      tick st planned now r = st ∨
        allowedTransition st (tick st planned now r) = true)
  ∧ (∀ (planned now : Int) (r : PollResult),
      tick CollectionState.collected planned now r =
        CollectionState.collected)
  ∧ (∀ (planned now : Int) (r : PollResult),
      tick CollectionState.expired planned now r = CollectionState.expired)
  ∧ (∀ (planned now : Int) (r : PollResult),
      tick CollectionState.failed planned now r = CollectionState.expired ↔
        planned + 7200 ≤ now)
  ∧ (∀ (planned : Int) (l : List (Int × PollResult)) (now : Int),
      selectedForPoll (runTicks CollectionState.expired planned l)
        planned now = false) := by
  refine ⟨?_, fun _ _ _ => rfl, fun _ _ _ => rfl, ?_, ?_⟩
  · intro st planned now r
    cases st with
    | pending =>
        simp only [tick]
        split
        · cases r <;> simp [allowedTransition]
        · exact Or.inl rfl
    | collected => exact Or.inl rfl
    | failed =>
        simp only [tick]
        split
        · simp [allowedTransition]
        · split
          · cases r <;> simp [allowedTransition]
          · exact Or.inl rfl
    | expired => exact Or.inl rfl
  · intro planned now r
    constructor
    · intro hexp
      by_contra hlt
      have hne : ¬ RETENTION_CUTOFF_SECONDS ≤ now - planned := by
        simp only [RETENTION_CUTOFF_SECONDS]
        omega
      simp only [tick, if_neg hne] at hexp
      split at hexp
      · cases r <;> simp_all
      · simp_all
    · intro hle
      have h : RETENTION_CUTOFF_SECONDS ≤ now - planned := by
        simp only [RETENTION_CUTOFF_SECONDS]
        omega
      simp only [tick, if_pos h]
  · intro planned l now
    rw [runTicks_expired]
    simp [selectedForPoll]

theorem state_machine_spec_witness :
    tick CollectionState.failed 0 7200 PollResult.noData =
      CollectionState.expired ∧
    selectedForPoll (runTicks CollectionState.expired 0
      [(300, PollResult.noData)]) 0 600 = false :=
  ⟨(state_machine_spec.2.2.2.1 0 7200 PollResult.noData).mpr (by norm_num),
   state_machine_spec.2.2.2.2 0 [(300, PollResult.noData)] 600⟩

/-- A row of the `actual_departures` table, per migration
002 (planned_departure_id, actual_departure_time nullable, delay_minutes,
is_cancelled, is_realtime) and migration 003 (departure_status,
classification_reason, expected_departure_time). -/
structure ActualDepartureRow where
  planned_departure_id : Nat
  actual_departure_time : Option Int
  expected_departure_time : Option Int
  delay_minutes : Int
  is_cancelled : Bool
  is_realtime : Bool
  departure_status : Option DepartureStatus
  classification_reason : Option String
deriving DecidableEq

/-- Modelled from the spec: the data-integrity validation applied before
any write — a row with a null actual departure time and a positive
delay is invalid (missing collector source). -/
def validRow (r : ActualDepartureRow) : Bool :=
  !(r.actual_departure_time == none && decide (0 < r.delay_minutes))

/-- Modelled from the spec: upsert-by-foreign-key into the
`actual_departures` store — when a row for the same
`planned_departure_id` exists it is updated in place (ON CONFLICT on the
`unique_planned_departure_id` constraint of migration 004), otherwise the
row is inserted (missing collector source). -/
def upsertActualDeparture (store : List ActualDepartureRow)
    (r : ActualDepartureRow) : List ActualDepartureRow :=
  if store.any fun s => s.planned_departure_id == r.planned_departure_id then
    store.map fun s =>
      if s.planned_departure_id == r.planned_departure_id then r else s
  else r :: store

/-- Modelled from the spec: the persistence adapter's write of an
ActualDeparture — the row is validated first and a violating write is
rejected, leaving the store unchanged; a valid row is upserted
(missing collector source). -/
def writeActualDeparture (store : List ActualDepartureRow)
    (r : ActualDepartureRow) : List ActualDepartureRow :=
  if validRow r then upsertActualDeparture store r else store

/-- At most one row per planned departure: the foreign keys stored in the
table are pairwise distinct. -/
def uniqueKeys (store : List ActualDepartureRow) : Prop :=
  (store.map fun s => s.planned_departure_id).Nodup

theorem upsert_all_valid (store : List ActualDepartureRow)
    (r : ActualDepartureRow) (hs : store.all validRow = true)
    (hr : validRow r = true) :
    (upsertActualDeparture store r).all validRow = true := by
  unfold upsertActualDeparture
  split
  · simp only [List.all_eq_true, List.mem_map] at hs ⊢
    rintro x ⟨s, hsmem, rfl⟩
    split
    · exact hr
    · exact hs s hsmem
  · simp only [List.all_cons, hr, Bool.true_and]
    exact hs

/-- Claim C3: a stored ActualDeparture never combines a null
actual_departure_time with a positive delay_minutes — the validation
rejects exactly those rows before the write (leaving the store
untouched), and any sequence of writes starting from a store satisfying
the invariant preserves it. -/
theorem actual_departure_invariant_spec :
    (∀ r : ActualDepartureRow, validRow r = false ↔
        r.actual_departure_time = none ∧ 0 < r.delay_minutes)
  ∧ (∀ (store : List ActualDepartureRow) (r : ActualDepartureRow),
      validRow r = false → writeActualDeparture store r = store)
  ∧ (∀ (store : List ActualDepartureRow) (r : ActualDepartureRow),
      store.all validRow = true →
        (writeActualDeparture store r).all validRow = true)
  ∧ (∀ (store : List ActualDepartureRow) (ws : List ActualDepartureRow),
      store.all validRow = true →
        (ws.foldl writeActualDeparture store).all validRow = true) := by
  have hchar : ∀ r : ActualDepartureRow, validRow r = false ↔
      r.actual_departure_time = none ∧ 0 < r.delay_minutes := by
    intro r
    simp [validRow]
  have hstep : ∀ (store : List ActualDepartureRow) (r : ActualDepartureRow),
      store.all validRow = true →
        (writeActualDeparture store r).all validRow = true := by
    intro store r hs
    unfold writeActualDeparture
    split
    · exact upsert_all_valid store r hs (by assumption)
    · exact hs
  refine ⟨hchar, ?_, hstep, ?_⟩
  · intro store r hvr
    simp [writeActualDeparture, hvr]
  · intro store ws
    induction ws generalizing store with
    | nil => exact fun hs => hs
    | cons w rest ih =>
        intro hs
        exact ih (writeActualDeparture store w) (hstep store w hs)

theorem actual_departure_invariant_spec_witness :
    validRow { planned_departure_id := 1, actual_departure_time := none,
               expected_departure_time := some 0, delay_minutes := 3,
               is_cancelled := false, is_realtime := true,
               departure_status := none,
               classification_reason := none } = false ∧
    writeActualDeparture []
      { planned_departure_id := 1, actual_departure_time := none,
        expected_departure_time := some 0, delay_minutes := 3,
        is_cancelled := false, is_realtime := true,
        departure_status := none, classification_reason := none } = [] :=
  ⟨(actual_departure_invariant_spec.1 _).mpr ⟨rfl, by norm_num⟩,
   actual_departure_invariant_spec.2.1 [] _
     ((actual_departure_invariant_spec.1 _).mpr ⟨rfl, by norm_num⟩)⟩

theorem upsert_preserves_uniqueKeys (store : List ActualDepartureRow)
    (r : ActualDepartureRow) (h : uniqueKeys store) :
    uniqueKeys (upsertActualDeparture store r) := by
  unfold upsertActualDeparture
  split
  · have hkeys :
        ((store.map fun s =>
            if s.planned_departure_id == r.planned_departure_id then r
            else s).map fun s => s.planned_departure_id) =
          store.map fun s => s.planned_departure_id := by
      rw [List.map_map]
      refine List.map_congr_left ?_
      intro s _
      simp only [Function.comp_apply]
      split
      · simp_all
      · rfl
    unfold uniqueKeys
    rw [hkeys]
    exact h
  · rename_i hnone
    unfold uniqueKeys
    simp only [List.map_cons, List.nodup_cons]
    refine ⟨?_, h⟩
    simp only [List.any_eq_true, beq_iff_eq, not_exists, not_and] at hnone
    simp only [List.mem_map, not_exists, not_and]
    intro s hsmem heq
    exact hnone s hsmem heq

/-- Claim C4: at most one ActualDeparture exists per PlannedDeparture — an
upsert for an already-present planned_departure_id updates the existing
row without changing the row count, a fresh id adds exactly one row, and
key uniqueness is preserved by every upsert and by any sequence of
(validated) writes, the sequential model of repeated or overlapping
poller invocations. -/
theorem upsert_unique_spec :
    (∀ (store : List ActualDepartureRow) (r : ActualDepartureRow),
      uniqueKeys store → uniqueKeys (upsertActualDeparture store r))
  ∧ (∀ (store : List ActualDepartureRow) (r : ActualDepartureRow),
      (store.any fun s =>
          s.planned_departure_id == r.planned_departure_id) = true →
        (upsertActualDeparture store r).length = store.length)
  ∧ (∀ (store : List ActualDepartureRow) (r : ActualDepartureRow),
      (store.any fun s =>
          s.planned_departure_id == r.planned_departure_id) = false →
        (upsertActualDeparture store r).length = store.length + 1)
  ∧ (∀ (store : List ActualDepartureRow) (ws : List ActualDepartureRow),
      uniqueKeys store → uniqueKeys (ws.foldl writeActualDeparture store)) := by
  have hstep : ∀ (store : List ActualDepartureRow) (r : ActualDepartureRow),
      uniqueKeys store → uniqueKeys (writeActualDeparture store r) := by
    intro store r h
    unfold writeActualDeparture
    split
    · exact upsert_preserves_uniqueKeys store r h
    · exact h
  refine ⟨upsert_preserves_uniqueKeys, ?_, ?_, ?_⟩
  · intro store r hany
    simp [upsertActualDeparture, hany]
  · intro store r hnone
    simp [upsertActualDeparture, hnone]
  · intro store ws
    induction ws generalizing store with
    | nil => exact fun h => h
    | cons w rest ih =>
        intro h
        exact ih (writeActualDeparture store w) (hstep store w h)

theorem upsert_unique_spec_witness :
    uniqueKeys (upsertActualDeparture
      [{ planned_departure_id := 1, actual_departure_time := some 60,
         expected_departure_time := none, delay_minutes := 1,
         is_cancelled := false, is_realtime := true,
         departure_status := some DepartureStatus.on_time,
         classification_reason := none }]
      { planned_departure_id := 1, actual_departure_time := some 120,
        expected_departure_time := none, delay_minutes := 2,
        is_cancelled := false, is_realtime := true,
        departure_status := some DepartureStatus.on_time,
        classification_reason := none }) ∧
    (upsertActualDeparture
      [{ planned_departure_id := 1, actual_departure_time := some 60,
         expected_departure_time := none, delay_minutes := 1,
         is_cancelled := false, is_realtime := true,
         departure_status := some DepartureStatus.on_time,
         classification_reason := none }]
      { planned_departure_id := 1, actual_departure_time := some 120,
        expected_departure_time := none, delay_minutes := 2,
        is_cancelled := false, is_realtime := true,
        departure_status := some DepartureStatus.on_time,
        classification_reason := none }).length = 1 :=
  ⟨upsert_unique_spec.1 _ _ (by simp [uniqueKeys]),
   upsert_unique_spec.2.1 _ _ (by simp)⟩

/-- The true Europe/Oslo local hour of a UTC timestamp (minutes since
epoch) at a fixed offset in minutes (60 in winter, 120 in summer) — the
value a single correct conversion of the timestamptz column,
`ts AT TIME ZONE 'Europe/Oslo'`, would produce (the idiom the
individual-departures query of `route.ts` lines 68–69 uses for display).
Used to state what claim C9 asserts about the classification queries. -/
def localHour (offMin t : Nat) : Nat := ((t + offMin) / 60) % 24

/-- Hour of day of the timestamp without a time-zone conversion — the value
of `EXTRACT(HOUR FROM ts::timestamp)` under the database session time
zone, which the route handler elsewhere assumes to be UTC
(`route.ts` converts `NOW()` explicitly to Europe/Oslo). -/
def sessionHour (t : Nat) : Nat := (t / 60) % 24

/-- The hour the per-period classification queries actually compute:
`EXTRACT(HOUR FROM ts::timestamp AT TIME ZONE 'Europe/Oslo')` on the
timestamptz column under the UTC session time zone. The `::timestamp`
cast renders the UTC wall time of the instant, `AT TIME ZONE
'Europe/Oslo'` then reinterprets that wall time as Oslo local time —
producing an instant `offMin` minutes earlier — and `EXTRACT` renders
that instant back in the UTC session: the net value is the hour of
`t − offMin`, not the Oslo local hour `t + offMin`. -/
def hourlyQueryHour (offMin t : Nat) : Nat :=
  ((((t : Int) - (offMin : Int)) / 60) % 24).toNat

/-- A classified `actual_departures` row as read by the dashboard
classification queries: the nullable actual departure time (as minutes
since epoch, UTC) and the departure status. -/
structure ClassifiedRow where
  actual_departure_time : Option Nat
  departure_status : DepartureStatus
deriving DecidableEq

/-- The WHERE clause of the per-period classification queries in
`route.ts` (lines 232–252 and 255–275), under the UTC session time zone
the handler assumes elsewhere: actual time non-null, inside the date
range, and the double-converted hour
`EXTRACT(HOUR FROM ts::timestamp AT TIME ZONE 'Europe/Oslo')` —
the hour of `t − offMin`, see `hourlyQueryHour` — between 6 and 21. -/
def hourlyQueryFilter (offMin lo hi : Nat) (row : ClassifiedRow) : Bool :=
  match row.actual_departure_time with
  | none => false
  | some t =>
      decide (lo ≤ t ∧ t ≤ hi ∧
        6 ≤ hourlyQueryHour offMin t ∧ hourlyQueryHour offMin t ≤ 21)

/-- The WHERE clause of the summary `statsQuery` in `route.ts`
(lines 285–302): actual time non-null, inside the date range, and the
hour of the raw timestamp — extracted without the `AT TIME ZONE` cast —
between 6 and 21. -/
def statsQueryFilter (lo hi : Nat) (row : ClassifiedRow) : Bool :=
  match row.actual_departure_time with
  | none => false
  | some t =>
      decide (lo ≤ t ∧ t ≤ hi ∧ 6 ≤ sessionHour t ∧ sessionHour t ≤ 21)

/-- The SUM(CASE WHEN departure_status = s THEN 1 ELSE 0 END) aggregate of
the classification queries, over rows passing the WHERE filter. -/
def countStatus (f : ClassifiedRow → Bool) (s : DepartureStatus)
    (rows : List ClassifiedRow) : Nat :=
  rows.countP fun row => f row && row.departure_status == s

theorem countStatus_ignores_filtered (f : ClassifiedRow → Bool)
    (hf : ∀ row : ClassifiedRow,
      row.actual_departure_time = none → f row = false)
    (s : DepartureStatus) (rows : List ClassifiedRow) :
    countStatus f s rows = countStatus f s
      (rows.filter fun row => row.actual_departure_time ≠ none) := by
  induction rows with
  | nil => rfl
  | cons a l ih =>
      by_cases ha : a.actual_departure_time = none
      · have hfa : f a = false := hf a ha
        rw [List.filter_cons_of_neg (by simp [ha])]
        simp only [countStatus, List.countP_cons, hfa,
          Bool.false_and] at ih ⊢
        simpa using ih
      · rw [List.filter_cons_of_pos (by simp [ha])]
        simp only [countStatus, List.countP_cons] at ih ⊢
        rw [ih]

/-- Claim C9 as written — that the classification-statistics queries count
only rows whose Europe/Oslo local hour is between 06 and 21 — is false
for both queries: with the summer offset of 120 minutes, a departure at
21:00 UTC (23:00 Oslo local) passes the summary `statsQueryFilter`
(raw hour 21) and also passes the per-period `hourlyQueryFilter`
(double-converted hour 19) although its local hour is 23. -/
theorem classification_local_hour_counterexample :
    (¬ (∀ (offMin lo hi : Nat) (row : ClassifiedRow) (t : Nat),
        statsQueryFilter lo hi row = true →
        row.actual_departure_time = some t →
        6 ≤ localHour offMin t ∧ localHour offMin t ≤ 21))
  ∧ (¬ (∀ (offMin lo hi : Nat) (row : ClassifiedRow) (t : Nat),
        hourlyQueryFilter offMin lo hi row = true →
        row.actual_departure_time = some t →
        6 ≤ localHour offMin t ∧ localHour offMin t ≤ 21)) := by
  constructor
  · intro hclaim
    have h := hclaim 120 0 2000
      { actual_departure_time := some 1260,
        departure_status := DepartureStatus.cancelled } 1260 (by decide) rfl
    revert h
    decide
  · intro hclaim
    have h := hclaim 120 0 2000
      { actual_departure_time := some 1260,
        departure_status := DepartureStatus.cancelled } 1260 (by decide) rfl
    revert h
    decide

/-- Claim C9, amended: under the UTC session time zone, both
classification queries count only rows whose actual_departure_time is
non-null and lies in the requested range, but neither windows on the
Europe/Oslo local hour — the per-period queries apply the 06–21 window
to the double-converted hour of `t − offset` and the summary statsQuery
applies it to the raw UTC hour, and at both realistic Oslo offsets the
per-period hour never equals the local hour; consequently every row with
a null actual departure time — in particular a cancelled or unknown
departure stored without one — is excluded from all per-period and
summary counts, although the queries sum the cancelled and unknown
statuses. -/
theorem dashboard_query_filters_spec :
    (∀ (offMin lo hi : Nat) (row : ClassifiedRow),
      hourlyQueryFilter offMin lo hi row = true →
        ∃ t, row.actual_departure_time = some t ∧ lo ≤ t ∧ t ≤ hi ∧
          6 ≤ hourlyQueryHour offMin t ∧ hourlyQueryHour offMin t ≤ 21)
  ∧ (∀ (lo hi : Nat) (row : ClassifiedRow),
      statsQueryFilter lo hi row = true →
        ∃ t, row.actual_departure_time = some t ∧ lo ≤ t ∧ t ≤ hi ∧
          6 ≤ sessionHour t ∧ sessionHour t ≤ 21)
  ∧ (∀ t : Nat, hourlyQueryHour 60 t ≠ localHour 60 t ∧
      hourlyQueryHour 120 t ≠ localHour 120 t)
  ∧ (∀ (offMin lo hi : Nat) (row : ClassifiedRow),
      row.actual_departure_time = none →
        hourlyQueryFilter offMin lo hi row = false ∧
          statsQueryFilter lo hi row = false)
  ∧ (∀ (offMin lo hi : Nat) (s : DepartureStatus)
        (rows : List ClassifiedRow),
      countStatus (hourlyQueryFilter offMin lo hi) s rows =
        countStatus (hourlyQueryFilter offMin lo hi) s
          (rows.filter fun row => row.actual_departure_time ≠ none) ∧
      countStatus (statsQueryFilter lo hi) s rows =
        countStatus (statsQueryFilter lo hi) s
          (rows.filter fun row => row.actual_departure_time ≠ none)) := by
  refine ⟨?_, ?_, ?_, ?_, ?_⟩
  · intro offMin lo hi row h
    cases hrow : row.actual_departure_time with
    | none => simp [hourlyQueryFilter, hrow] at h
    | some t =>
        refine ⟨t, rfl, ?_⟩
        simpa [hourlyQueryFilter, hrow, and_assoc] using h
  · intro lo hi row h
    cases hrow : row.actual_departure_time with
    | none => simp [statsQueryFilter, hrow] at h
    | some t =>
        refine ⟨t, rfl, ?_⟩
        simpa [statsQueryFilter, hrow, and_assoc] using h
  · intro t
    constructor <;> (simp only [hourlyQueryHour, localHour]; omega)
  · intro offMin lo hi row hnull
    exact ⟨by simp [hourlyQueryFilter, hnull],
      by simp [statsQueryFilter, hnull]⟩
  · intro offMin lo hi s rows
    constructor
    · exact countStatus_ignores_filtered _
        (fun row hnull => by simp [hourlyQueryFilter, hnull]) s rows
    · exact countStatus_ignores_filtered _
        (fun row hnull => by simp [statsQueryFilter, hnull]) s rows

theorem dashboard_query_filters_spec_witness :
    (∃ t, ({ actual_departure_time := some 480,
             departure_status := DepartureStatus.on_time } :
        ClassifiedRow).actual_departure_time = some t ∧
      0 ≤ t ∧ t ≤ 2000 ∧ 6 ≤ hourlyQueryHour 60 t ∧
        hourlyQueryHour 60 t ≤ 21) ∧
    countStatus (statsQueryFilter 0 2000) DepartureStatus.cancelled
      [{ actual_departure_time := none,
         departure_status := DepartureStatus.cancelled }] =
    countStatus (statsQueryFilter 0 2000) DepartureStatus.cancelled
      ([{ actual_departure_time := none,
          departure_status := DepartureStatus.cancelled }].filter
        fun row => row.actual_departure_time ≠ none) :=
  ⟨dashboard_query_filters_spec.1 60 0 2000
    { actual_departure_time := some 480,
      departure_status := DepartureStatus.on_time } (by decide),
   (dashboard_query_filters_spec.2.2.2.2 0 0 2000 DepartureStatus.cancelled
     [{ actual_departure_time := none,
        departure_status := DepartureStatus.cancelled }]).2⟩

/-- A row returned by the individual-departures query of `route.ts`
(lines 65–79): line code, formatted planned and actual time strings, and
the nullable delay and cancellation columns. -/
structure DeparturesSqlRow where
  line_code : String
  planned_time : String
  actual_time : Option String
  delay_minutes : Option Int
  is_cancelled : Option Bool
deriving DecidableEq

/-- The JSON object the GET handler emits per departure: `delayMinutes`
and `isCancelled` are total (non-nullable) fields. -/
structure DepartureJson where
  lineCode : String
  plannedTime : String
  actualTime : Option String
  delayMinutes : Int
  isCancelled : Bool
deriving DecidableEq

/-- The row-to-JSON mapping of `route.ts` lines 121–127, with JavaScript
truthiness spelled out: `row.actual_time || null` yields null for a null
or empty string, `row.delay_minutes || 0` yields 0 for null or 0, and
`row.is_cancelled || false` yields false for null or false. -/
def mapDeparture (row : DeparturesSqlRow) : DepartureJson :=
  { lineCode := row.line_code
    plannedTime := row.planned_time
    actualTime :=
      match row.actual_time with
      | none => none
      | some s => if s = "" then none else some s
    delayMinutes :=
      match row.delay_minutes with
      | none => 0
      | some d => if d = 0 then 0 else d
    isCancelled :=
      match row.is_cancelled with
      | none => false
      | some b => if b = false then false else b }

/-- Claim C10: the GET departures handler emits `delayMinutes = 0` when the
stored delay_minutes is null (or the falsy 0), `isCancelled = false` when
is_cancelled is null, and `actualTime = null` when no actual time was
recorded; the emitted `delayMinutes` and `isCancelled` always carry the
(non-null) defaulted values `delay_minutes ?? 0` and
`is_cancelled ?? false`. -/
theorem departures_mapping_spec :
    (∀ row : DeparturesSqlRow, row.delay_minutes = none →
        (mapDeparture row).delayMinutes = 0)
  ∧ (∀ row : DeparturesSqlRow, row.delay_minutes = some 0 →
        (mapDeparture row).delayMinutes = 0)
  ∧ (∀ row : DeparturesSqlRow, row.is_cancelled = none →
        (mapDeparture row).isCancelled = false)
  ∧ (∀ row : DeparturesSqlRow, row.actual_time = none →
        (mapDeparture row).actualTime = none)
  ∧ (∀ row : DeparturesSqlRow,
      (mapDeparture row).delayMinutes = row.delay_minutes.getD 0 ∧
      (mapDeparture row).isCancelled = row.is_cancelled.getD false) := by
  refine ⟨?_, ?_, ?_, ?_, ?_⟩
  · intro row h
    simp [mapDeparture, h]
  · intro row h
    simp [mapDeparture, h]
  · intro row h
    simp [mapDeparture, h]
  · intro row h
    simp [mapDeparture, h]
  · intro row
    constructor
    · cases h : row.delay_minutes with
      | none => simp [mapDeparture, h]
      | some d =>
          by_cases hd : d = 0 <;> simp [mapDeparture, h, hd]
    · cases h : row.is_cancelled with
      | none => simp [mapDeparture, h]
      | some b =>
          cases b <;> simp [mapDeparture, h]

/-- A sample all-null row, as the individual-departures query would return
for a departure recorded without actual data. -/
def sampleDepRow : DeparturesSqlRow :=
  { line_code := "L2"
    planned_time := "2025-01-01 08:00:00"
    actual_time := none
    delay_minutes := none
    is_cancelled := none }

theorem departures_mapping_spec_witness :
    (mapDeparture sampleDepRow).delayMinutes = 0 ∧
    (mapDeparture sampleDepRow).isCancelled = false ∧
    (mapDeparture sampleDepRow).actualTime = none :=
  ⟨departures_mapping_spec.1 sampleDepRow rfl,
   departures_mapping_spec.2.2.1 sampleDepRow rfl,
   departures_mapping_spec.2.2.2.1 sampleDepRow rfl⟩

end Toginnsikt
